import Mathlib

/-!
# Verification of the pwv CyberArk password-vault client

Shallow embedding of the vault API client (`api.go` / `main.go` of
krpors/pwv) together with proofs about its timestamp codec, session
lifecycle, request operations and batch credential retrieval.

Machine integers (`int` on a 64-bit platform) are modelled as `Int` with
explicit range checks where `strconv` performs them; fallible Go code
returning `(T, error)` is modelled as `Except`; the HTTP transport is an
explicit parameter describing the outcome of the round trip, so that the
theorems quantify over every possible response.
-/

/-! ## Timestamp codec (`caTime.UnmarshalJSON`)

The Go code is

```
s := string(b)
s = strings.TrimLeft(s, "\"")
s = strings.TrimRight(s, "\"")
i, err := strconv.Atoi(s)
if err != nil { return err }
m.Time = time.Unix(int64(i), 0)
```

We model the decoded `time.Unix(i, 0)` instant by the integer `i` itself
(Unix epoch seconds).
-/

/-- One character of `strconv`'s base-10 digit test: Go checks
the byte range computed from the characters 0 and 9 (code points 48 and 57). -/
def isDigitCh (c : Char) : Bool :=
  decide (48 ≤ c.toNat) && decide (c.toNat ≤ 57)

/-- The digit-consuming loop of `strconv.ParseUint` (base 10): consume the
whole list, failing on the first non-digit.  Go checks overflow against a
cutoff at every step; computing the exact value in `Nat` and comparing at
the end (done by the callers below) yields the same ok/error outcome. -/
def parseDigitsAux : Nat → List Char → Option Nat
  | acc, [] => some acc
  | acc, c :: cs =>
    if isDigitCh c then parseDigitsAux (acc * 10 + (c.toNat - 48)) cs else none

/-- `strconv.ParseUint(s, 10, 64)` restricted to the digit phase: an empty
numeral is a syntax error. -/
def goParseUint (l : List Char) : Option Nat :=
  match l with
  | [] => none
  | _ :: _ => parseDigitsAux 0 l

/-- `strconv.Atoi` (= `ParseInt(s, 10, 0)` with 64-bit `int`): optional
single leading sign, nonempty run of base-10 digits, and the int64 range
check (`-2^63 ≤ v ≤ 2^63 - 1`; beyond it Go reports `ErrRange`, which the
timestamp decoder also treats as failure). -/
def goAtoiCore (l : List Char) : Except String Int :=
  match l with
  | [] => .error "invalid syntax"
  | c :: cs =>
    if c = '-' then
      match goParseUint cs with
      | none => .error "invalid syntax"
      | some n => if n ≤ 2 ^ 63 then .ok (-(n : Int)) else .error "value out of range"
    else if c = '+' then
      match goParseUint cs with
      | none => .error "invalid syntax"
      | some n => if n < 2 ^ 63 then .ok (n : Int) else .error "value out of range"
    else
      match goParseUint (c :: cs) with
      | none => .error "invalid syntax"
      | some n => if n < 2 ^ 63 then .ok (n : Int) else .error "value out of range"

/-- `strings.TrimLeft(s, "\"")` followed by `strings.TrimRight(s, "\"")`:
drop every leading and every trailing double-quote character. -/
def trimQuotes (l : List Char) : List Char :=
  ((l.dropWhile (fun c => c = '"')).reverse.dropWhile (fun c => c = '"')).reverse

/-- `caTime.UnmarshalJSON`: strip surrounding quotes, then `strconv.Atoi`.
On success the result is the Unix-epoch-seconds value passed to
`time.Unix`. -/
def caTime_UnmarshalJSON (b : String) : Except String Int :=
  goAtoiCore (trimQuotes b.data)

/-! ### The decimal numeral of an integer (spec-side, for stating C1) -/

/-- The decimal digit list of a natural number (most significant first). -/
def natRepr (n : Nat) : List Char :=
  if h : n < 10 then [Char.ofNat (48 + n)]
  else natRepr (n / 10) ++ [Char.ofNat (48 + n % 10)]
termination_by n
decreasing_by exact Nat.div_lt_self (by omega) (by omega)

/-- The decimal numeral of an integer: a leading minus sign for negative
values. -/
def intRepr (T : Int) : List Char :=
  if T < 0 then '-' :: natRepr T.natAbs else natRepr T.toNat

/-! ### Digit lemmas -/

theorem charOfNat_digit_toNat {d : Nat} (h : d < 10) :
    (Char.ofNat (48 + d)).toNat = 48 + d := by
  interval_cases d <;> decide

theorem isDigitCh_charOfNat {d : Nat} (h : d < 10) :
    isDigitCh (Char.ofNat (48 + d)) = true := by
  interval_cases d <;> decide

theorem natRepr_ne_nil (n : Nat) : natRepr n ≠ [] := by
  rw [natRepr]
  split <;> simp

theorem natRepr_all_digits (n : Nat) : ∀ c ∈ natRepr n, isDigitCh c = true := by
  induction n using Nat.strong_induction_on with
  | _ n ih =>
    rw [natRepr]
    split
    · intro c hc
      simp only [List.mem_singleton] at hc
      subst hc
      exact isDigitCh_charOfNat (by omega)
    · intro c hc
      rcases List.mem_append.mp hc with h1 | h2
      · exact ih (n / 10) (Nat.div_lt_self (by omega) (by omega)) c h1
      · simp only [List.mem_singleton] at h2
        subst h2
        exact isDigitCh_charOfNat (Nat.mod_lt _ (by omega))

theorem isDigitCh_ne_special {c : Char} (h : isDigitCh c = true) :
    c ≠ '"' ∧ c ≠ '-' ∧ c ≠ '+' := by
  refine ⟨?_, ?_, ?_⟩ <;> rintro rfl <;> simp [isDigitCh] at h

theorem parseDigitsAux_append (l1 l2 : List Char) (acc : Nat) :
    parseDigitsAux acc (l1 ++ l2) =
      (parseDigitsAux acc l1).bind (fun m => parseDigitsAux m l2) := by
  induction l1 generalizing acc with
  | nil => simp [parseDigitsAux]
  | cons c cs ih =>
    simp only [List.cons_append, parseDigitsAux]
    split
    · exact ih _
    · simp

theorem parseDigitsAux_natRepr (n : Nat) :
    parseDigitsAux 0 (natRepr n) = some n := by
  induction n using Nat.strong_induction_on with
  | _ n ih =>
    rw [natRepr]
    split
    · rename_i h
      simp [parseDigitsAux, isDigitCh_charOfNat h, charOfNat_digit_toNat h]
    · rename_i h
      rw [parseDigitsAux_append, ih (n / 10) (Nat.div_lt_self (by omega) (by omega))]
      have hm : n % 10 < 10 := Nat.mod_lt _ (by omega)
      simp [parseDigitsAux, isDigitCh_charOfNat hm, charOfNat_digit_toNat hm]
      omega

/-! ### Quote-trimming lemmas -/

theorem dropWhile_quote_of_no_quote (l : List Char) (h : ∀ c ∈ l, c ≠ '"') :
    l.dropWhile (fun c => c = '"') = l := by
  cases l with
  | nil => rfl
  | cons a t =>
    have : a ≠ '"' := h a (List.mem_cons_self a t)
    simp [List.dropWhile_cons, this]

theorem trimQuotes_of_no_quote (l : List Char) (h : ∀ c ∈ l, c ≠ '"') :
    trimQuotes l = l := by
  unfold trimQuotes
  rw [dropWhile_quote_of_no_quote l h,
      dropWhile_quote_of_no_quote l.reverse (by simpa using h),
      List.reverse_reverse]

theorem trimQuotes_wrap (l : List Char) (h : ∀ c ∈ l, c ≠ '"') (hne : l ≠ []) :
    trimQuotes ('"' :: (l ++ ['"'])) = l := by
  unfold trimQuotes
  have h1 : ('"' :: (l ++ ['"'])).dropWhile (fun c => c = '"') = l ++ ['"'] := by
    cases l with
    | nil => exact absurd rfl hne
    | cons a t =>
      have ha : a ≠ '"' := h a (List.mem_cons_self a t)
      simp [List.dropWhile_cons, ha]
  rw [h1]
  have h2 : (l ++ ['"']).reverse = '"' :: l.reverse := by simp
  rw [h2]
  have h3 : ('"' :: l.reverse).dropWhile (fun c => c = '"') = l.reverse := by
    simp only [List.dropWhile_cons]
    simp only [decide_True, if_true]
    exact dropWhile_quote_of_no_quote l.reverse (by simpa using h)
  rw [h3, List.reverse_reverse]

theorem goAtoiCore_digits (l : List Char) (hne : l ≠ [])
    (hd : ∀ c ∈ l, isDigitCh c = true) (n : Nat)
    (hp : parseDigitsAux 0 l = some n) (hr : n < 2 ^ 63) :
    goAtoiCore l = .ok (n : Int) := by
  cases l with
  | nil => exact absurd rfl hne
  | cons c cs =>
    have hc : isDigitCh c = true := hd c (List.mem_cons_self c cs)
    obtain ⟨-, hminus, hplus⟩ := isDigitCh_ne_special hc
    simp only [goAtoiCore, if_neg hminus, if_neg hplus, goParseUint, hp, hr, if_true]

theorem goParseUint_of_ne_nil (l : List Char) (h : l ≠ []) :
    goParseUint l = parseDigitsAux 0 l := by
  cases l with
  | nil => exact absurd rfl h
  | cons c cs => rfl

theorem intRepr_no_quote (T : Int) : ∀ c ∈ intRepr T, c ≠ '"' := by
  intro c hc
  unfold intRepr at hc
  split at hc
  · rcases List.mem_cons.mp hc with rfl | hm
    · decide
    · exact (isDigitCh_ne_special (natRepr_all_digits _ c hm)).1
  · exact (isDigitCh_ne_special (natRepr_all_digits _ c hc)).1

theorem intRepr_ne_nil (T : Int) : intRepr T ≠ [] := by
  unfold intRepr
  split
  · simp
  · exact natRepr_ne_nil _

theorem goAtoiCore_intRepr (T : Int) (h1 : -(2 ^ 63) ≤ T) (h2 : T < 2 ^ 63) :
    goAtoiCore (intRepr T) = .ok T := by
  unfold intRepr
  split
  · rename_i hneg
    have habs : ((T.natAbs : Int)) = -T := by omega
    have hbound : T.natAbs ≤ 2 ^ 63 := by omega
    simp only [goAtoiCore, if_pos rfl,
      goParseUint_of_ne_nil _ (natRepr_ne_nil _), parseDigitsAux_natRepr,
      hbound, if_true]
    congr 1
    omega
  · rename_i hpos
    have hzero : 0 ≤ T := by omega
    have hbound : T.toNat < 2 ^ 63 := by omega
    rw [goAtoiCore_digits (natRepr T.toNat) (natRepr_ne_nil _)
      (natRepr_all_digits _) T.toNat (parseDigitsAux_natRepr _) hbound]
    congr 1
    omega

/-- Claim C1: for every int64-representable integer `T`, decoding the quoted
JSON form of `T` and the bare JSON form of `T` with `caTime.UnmarshalJSON`
yields the identical instant, namely Unix epoch second `T`; and stripping
quotes from the already-bare numeral is a no-op, so both paths share the
same integer-parse step. -/
theorem C1_dual_format_timestamp (T : Int)
    (h1 : -(2 ^ 63) ≤ T) (h2 : T < 2 ^ 63) :
    caTime_UnmarshalJSON (String.mk (intRepr T)) = .ok T ∧
    caTime_UnmarshalJSON (String.mk ('"' :: (intRepr T ++ ['"']))) = .ok T ∧
    trimQuotes (intRepr T) = intRepr T := by
  have hno := intRepr_no_quote T
  have htrim : trimQuotes (intRepr T) = intRepr T := trimQuotes_of_no_quote _ hno
  refine ⟨?_, ?_, htrim⟩
  · show goAtoiCore (trimQuotes (intRepr T)) = .ok T
    rw [htrim]
    exact goAtoiCore_intRepr T h1 h2
  · show goAtoiCore (trimQuotes ('"' :: (intRepr T ++ ['"']))) = .ok T
    rw [trimQuotes_wrap _ hno (intRepr_ne_nil T)]
    exact goAtoiCore_intRepr T h1 h2

/-- Witness for C1 at the timestamp 1543600800 used in the repository's
test fixture. -/
theorem C1_witness :
    caTime_UnmarshalJSON (String.mk (intRepr 1543600800)) = .ok 1543600800 ∧
    caTime_UnmarshalJSON (String.mk ('"' :: (intRepr 1543600800 ++ ['"']))) = .ok 1543600800 ∧
    trimQuotes (intRepr 1543600800) = intRepr 1543600800 :=
  C1_dual_format_timestamp 1543600800 (by norm_num) (by norm_num)

/-! ### Syntactic characterisation of what `strconv.Atoi` accepts -/

/-- A base-10 integer literal in the sense of `strconv.Atoi`: an optional
single leading sign followed by a nonempty run of decimal digits. -/
def isIntLiteral : List Char → Bool
  | [] => false
  | c :: cs =>
    if c = '-' || c = '+' then !cs.isEmpty && cs.all isDigitCh
    else (c :: cs).all isDigitCh

theorem parseDigitsAux_none_of_not_all (l : List Char)
    (h : l.all isDigitCh = false) (acc : Nat) :
    parseDigitsAux acc l = none := by
  induction l generalizing acc with
  | nil => simp at h
  | cons c cs ih =>
    simp only [List.all_cons, Bool.and_eq_false_iff] at h
    rcases h with h | h
    · simp [parseDigitsAux, h]
    · simp only [parseDigitsAux]
      split
      · exact ih h _
      · rfl

theorem goAtoiCore_error_of_not_lit (l : List Char)
    (h : isIntLiteral l = false) :
    goAtoiCore l = .error "invalid syntax" := by
  cases l with
  | nil => rfl
  | cons c cs =>
    simp only [isIntLiteral] at h
    by_cases hsign : c = '-' || c = '+'
    · rw [if_pos hsign] at h
      have hgp : goParseUint cs = none := by
        cases cs with
        | nil => rfl
        | cons d ds =>
          simp only [List.isEmpty_cons, Bool.not_false, Bool.true_and] at h
          rw [goParseUint_of_ne_nil _ (by simp)]
          exact parseDigitsAux_none_of_not_all _ h _
      rcases Bool.or_eq_true_iff.mp hsign with hm | hp
      · simp only [goAtoiCore, if_pos (of_decide_eq_true hm), hgp]
      · have hcp : c = '+' := of_decide_eq_true hp
        by_cases hcm : c = '-'
        · simp only [goAtoiCore, if_pos hcm, hgp]
        · simp only [goAtoiCore, if_neg hcm, if_pos hcp, hgp]
    · rw [if_neg hsign] at h
      have hm : ¬(c = '-') := by
        intro hc
        apply hsign
        simp [hc]
      have hp : ¬(c = '+') := by
        intro hc
        apply hsign
        simp [hc]
      have hgp : goParseUint (c :: cs) = none := by
        rw [goParseUint_of_ne_nil _ (by simp)]
        exact parseDigitsAux_none_of_not_all _ h _
      simp only [goAtoiCore, if_neg hm, if_neg hp, hgp]

/-- Claim C9: every input whose content after quote-stripping is not a
base-10 integer literal is rejected by `caTime.UnmarshalJSON` with the
parse error (the MalformedTimestamp condition) instead of producing an
instant. -/
theorem C9_malformed_timestamp (s : String)
    (h : isIntLiteral (trimQuotes s.data) = false) :
    caTime_UnmarshalJSON s = .error "invalid syntax" :=
  goAtoiCore_error_of_not_lit _ h

/-- Witness for C9: a quoted non-numeric token. -/
theorem C9_witness : caTime_UnmarshalJSON "\"20x18\"" = .error "invalid syntax" :=
  C9_malformed_timestamp "\"20x18\"" (by decide)

theorem mem_dropWhile_quote {c : Char} (l : List Char)
    (hc : c ∈ l) (hq : c ≠ '"') :
    c ∈ l.dropWhile (fun x => x = '"') := by
  induction l with
  | nil => simp at hc
  | cons a t ih =>
    by_cases ha : a = '"'
    · have hct : c ∈ t := by
        rcases List.mem_cons.mp hc with rfl | hm
        · exact absurd ha hq
        · exact hm
      simpa [List.dropWhile_cons, ha] using ih hct
    · simpa [List.dropWhile_cons, ha] using hc

theorem mem_trimQuotes {c : Char} (l : List Char)
    (hc : c ∈ l) (hq : c ≠ '"') : c ∈ trimQuotes l := by
  unfold trimQuotes
  rw [List.mem_reverse]
  apply mem_dropWhile_quote
  · rw [List.mem_reverse]
    exact mem_dropWhile_quote l hc hq
  · exact hq

theorem isIntLiteral_false_of_bad_mem {c : Char} (l : List Char)
    (hc : c ∈ l) (hd : isDigitCh c = false) (hm : c ≠ '-') (hp : c ≠ '+') :
    isIntLiteral l = false := by
  cases l with
  | nil => rfl
  | cons a t =>
    simp only [isIntLiteral]
    by_cases hsign : a = '-' || a = '+'
    · rw [if_pos hsign]
      have hct : c ∈ t := by
        rcases List.mem_cons.mp hc with rfl | hmem
        · rcases Bool.or_eq_true_iff.mp hsign with h | h
          · exact absurd (of_decide_eq_true h) hm
          · exact absurd (of_decide_eq_true h) hp
        · exact hmem
      have : t.all isDigitCh = false := by
        apply Bool.eq_false_iff.mpr
        intro hall
        have := List.all_eq_true.mp hall c hct
        rw [hd] at this
        exact Bool.false_ne_true this
      simp [this]
    · rw [if_neg hsign]
      have : ((a :: t).all isDigitCh) = false := by
        apply Bool.eq_false_iff.mpr
        intro hall
        have := List.all_eq_true.mp hall c hc
        rw [hd] at this
        exact Bool.false_ne_true this
      exact this

theorem parseDigitsAux_some_all (l : List Char) (acc n : Nat)
    (h : parseDigitsAux acc l = some n) : l.all isDigitCh = true := by
  cases hall : l.all isDigitCh
  · rw [parseDigitsAux_none_of_not_all l hall acc] at h
    exact Option.noConfusion h
  · rfl

/-- Every list `strconv.Atoi` accepts is an optionally-signed nonempty
digit run: the converse of `goAtoiCore_error_of_not_lit`. -/
theorem goAtoiCore_ok_lit (l : List Char) (V : Int)
    (h : goAtoiCore l = .ok V) : isIntLiteral l = true := by
  cases l with
  | nil => exact Except.noConfusion h
  | cons c cs =>
    simp only [goAtoiCore] at h
    by_cases hm : c = '-'
    · subst hm
      rw [if_pos rfl] at h
      cases cs with
      | nil => exact Except.noConfusion h
      | cons d ds =>
        cases hg : parseDigitsAux 0 (d :: ds) with
        | none =>
          rw [goParseUint_of_ne_nil _ (by simp), hg] at h
          exact Except.noConfusion h
        | some n =>
          have hall := parseDigitsAux_some_all _ 0 n hg
          simp [isIntLiteral, hall]
    · by_cases hp : c = '+'
      · subst hp
        rw [if_neg hm, if_pos rfl] at h
        cases cs with
        | nil => exact Except.noConfusion h
        | cons d ds =>
          cases hg : parseDigitsAux 0 (d :: ds) with
          | none =>
            rw [goParseUint_of_ne_nil _ (by simp), hg] at h
            exact Except.noConfusion h
          | some n =>
            have hall := parseDigitsAux_some_all _ 0 n hg
            simp [isIntLiteral, hall]
      · rw [if_neg hm, if_neg hp] at h
        cases hg : parseDigitsAux 0 (c :: cs) with
        | none =>
          rw [goParseUint_of_ne_nil _ (by simp), hg] at h
          exact Except.noConfusion h
        | some n =>
          have hall := parseDigitsAux_some_all _ 0 n hg
          simp [isIntLiteral, hm, hp, hall]

/-- Claim C10: timestamp decoding rejects every numeric token containing a
fractional point or an exponent marker, lower- or upper-case (valid JSON
numbers such as 1543600800.5, 1.5436008e9 or 1E9); conversely every
accepted input is, after quote-stripping, a whole base-10 integer literal
(optional single sign, digits), and every int64-representable integer `T`
— negative values decoding to the pre-epoch instant `T` — is accepted in
both its bare and its quoted decimal form. -/
theorem C10_only_whole_integers (s t : String) (T V : Int)
    (h : ('.' ∈ s.data) ∨ ('e' ∈ s.data) ∨ ('E' ∈ s.data))
    (h1 : -(2 ^ 63) ≤ T) (h2 : T < 2 ^ 63) :
    caTime_UnmarshalJSON s = .error "invalid syntax" ∧
    (caTime_UnmarshalJSON t = .ok V → isIntLiteral (trimQuotes t.data) = true) ∧
    caTime_UnmarshalJSON (String.mk (intRepr T)) = .ok T ∧
    caTime_UnmarshalJSON (String.mk ('"' :: (intRepr T ++ ['"']))) = .ok T := by
  have hno := intRepr_no_quote T
  refine ⟨?_, fun hv => goAtoiCore_ok_lit _ V hv, ?_, ?_⟩
  · rcases h with h | h | h
    · have hm := mem_trimQuotes s.data h (by decide)
      exact goAtoiCore_error_of_not_lit _
        (isIntLiteral_false_of_bad_mem _ hm (by decide) (by decide) (by decide))
    · have hm := mem_trimQuotes s.data h (by decide)
      exact goAtoiCore_error_of_not_lit _
        (isIntLiteral_false_of_bad_mem _ hm (by decide) (by decide) (by decide))
    · have hm := mem_trimQuotes s.data h (by decide)
      exact goAtoiCore_error_of_not_lit _
        (isIntLiteral_false_of_bad_mem _ hm (by decide) (by decide) (by decide))
  · show goAtoiCore (trimQuotes (intRepr T)) = .ok T
    rw [trimQuotes_of_no_quote _ hno]
    exact goAtoiCore_intRepr T h1 h2
  · show goAtoiCore (trimQuotes ('"' :: (intRepr T ++ ['"']))) = .ok T
    rw [trimQuotes_wrap _ hno (intRepr_ne_nil T)]
    exact goAtoiCore_intRepr T h1 h2

/-- Witness for C10: the upper-case exponent token 1E9 is rejected, the
accepted token 1543600800 is an integer literal after quote-stripping,
and the pre-epoch instant -86400 is accepted bare and quoted. -/
theorem C10_witness :
    caTime_UnmarshalJSON "1E9" = .error "invalid syntax" ∧
    isIntLiteral (trimQuotes "1543600800".data) = true ∧
    caTime_UnmarshalJSON (String.mk (intRepr (-86400))) = .ok (-86400) ∧
    caTime_UnmarshalJSON (String.mk ('"' :: (intRepr (-86400) ++ ['"']))) = .ok (-86400) := by
  have h := C10_only_whole_integers "1E9" "1543600800" (-86400) 1543600800
    (Or.inr (Or.inr (by decide))) (by norm_num) (by norm_num)
  exact ⟨h.1, h.2.1 (by rfl), h.2.2.1, h.2.2.2⟩

/-! ## Session client and request operations

The Go `caAPI` struct carries an `http.Client`, the base URL and the
`LogonKey` session token.  The HTTP client is not part of the state we
model; instead each operation takes an explicit description of the outcome
of its HTTP round trip, so the theorems quantify over every response the
transport could produce.  Go errors (untyped `error` values built with
`fmt.Errorf`) are modelled by `caError`, one constructor per distinct
error-producing return path. -/

/-- The mutable client state: base URL and session token.  The token is
the empty string exactly when unauthenticated. -/
structure caAPI where
  Base : String
  LogonKey : String
deriving Repr, DecidableEq, Inhabited

/-- The distinct error shapes the client returns.
`transport` covers `http.NewRequest` / `Client.Do` / `Client.Post`
failures; `bodyRead` an `ioutil.ReadAll` failure; `decode` a
`json.Unmarshal` failure; `codeMessage code msg` the formatted
server-reported error (Go builds the string code ++ " (" ++ msg ++ ")");
`noLogonKey` the guard failure for an unauthenticated call. -/
inductive caError where
  | transport (msg : String)
  | bodyRead (msg : String)
  | decode (msg : String)
  | codeMessage (code msg : String)
  | noLogonKey (msg : String)
deriving Repr, DecidableEq

/-- Outcome of an HTTP round trip whose body is read with `ReadAll` and
decoded with `json.Unmarshal` into a value of type `α` (the status code is
ignored by the operations that use this shape, exactly as in the source). -/
inductive bodyResult (α : Type) where
  | transportErr (msg : String)
  | readErr (msg : String)
  | undecodable (msg : String)
  | decoded (a : α)

/-- Outcome of an HTTP round trip whose raw body is returned verbatim
(`GetPassword`). -/
inductive rawResult where
  | transportErr (msg : String)
  | readErr (msg : String)
  | raw (body : String)

/-- `caLogonResponse`: all three fields are exported in Go, so
`json.Unmarshal` populates all of them. -/
structure caLogonResponse where
  CyberArkLogonResult : String
  ErrorCode : String
  ErrorMessage : String
deriving Repr, DecidableEq, Inhabited

/-- `caLogonRequest`, the login payload (marshalled to JSON in Go; a
struct of strings, a bool and an int, whose `json.Marshal` cannot fail). -/
structure caLogonRequest where
  Username : String
  Password : String
  UseRadiusAuthentication : Bool
  ConnectionNumber : Int
deriving Repr, DecidableEq

/-- `caAPI.Login`: POSTs the credential payload, reads and decodes the
response; a non-empty server error code is returned as the formatted
error, otherwise the returned `CyberArkLogonResult` token is stored in
`LogonKey`.  The Go `ReadAll` failure is replaced by the literal message
"whoops"; the transport wrapping of the POST error message is not
reproduced (only the fact that an error surfaces). -/
def Login (api : caAPI) (username password : String)
    (resp : bodyResult caLogonResponse) : caAPI × Except caError Unit :=
  let _p : caLogonRequest :=
    { Username := username, Password := password,
      UseRadiusAuthentication := false, ConnectionNumber := 1 }
  match resp with
  | .transportErr m => (api, .error (.transport m))
  | .readErr _ => (api, .error (.bodyRead "whoops"))
  | .undecodable m => (api, .error (.decode m))
  | .decoded logonResult =>
    if logonResult.ErrorCode ≠ "" then
      (api, .error (.codeMessage logonResult.ErrorCode logonResult.ErrorMessage))
    else
      ({ api with LogonKey := logonResult.CyberArkLogonResult }, .ok ())

/-- `caAPI.Logout`: fails fast when `LogonKey` is empty, otherwise POSTs
to the logoff endpoint and reports only a transport failure; the response
body is discarded and the state (in particular the token) is never
modified. -/
def Logout (api : caAPI) (resp : Except String Unit) :
    caAPI × Except caError Unit :=
  if api.LogonKey = "" then
    (api, .error (.noLogonKey "no logon key exists - unable to logout"))
  else
    match resp with
    | .error m => (api, .error (.transport m))
    | .ok _ => (api, .ok ())

/-- Nested account properties of an incoming request.  The two `caTime`
fields are represented by their decoded Unix-epoch-second values. -/
structure caIncomingRequestProperties where
  Address : String
  Safe : String
  Name : String
  LastUsedDate : Int
  LastUsedBy : String
  Username : String
deriving Repr, DecidableEq, Inhabited

structure caIncomingRequestAccountDetails where
  Properties : caIncomingRequestProperties
deriving Repr, DecidableEq, Inhabited

/-- `caIncomingRequest`: one access request awaiting the caller's
decision (`caTime` fields as epoch seconds). -/
structure caIncomingRequest where
  RequestID : String
  RequestorUserName : String
  UserReason : String
  Operation : String
  AccessFrom : Int
  AccessTo : Int
  AccountDetails : caIncomingRequestAccountDetails
deriving Repr, DecidableEq, Inhabited

/-- `caIncomingRequestsResponse`: the listing envelope (all fields
exported in Go). -/
structure caIncomingRequestsResponse where
  IncomingRequests : List caIncomingRequest
  Total : Int
deriving Repr, DecidableEq, Inhabited

/-- `caAPI.IncomingRequests`: guards on an empty `LogonKey` before doing
anything else; only past the guard is the authenticated GET issued.  The
second component counts the HTTP round trips actually performed, so
"fails without issuing an HTTP call" is the pair `(error, 0)`,
independent of the transport outcome parameter. -/
def IncomingRequests (api : caAPI)
    (resp : bodyResult caIncomingRequestsResponse) :
    Except caError caIncomingRequestsResponse × Nat :=
  if api.LogonKey = "" then
    (.error (.noLogonKey "no logon key exists"), 0)
  else
    match resp with
    | .transportErr m => (.error (.transport m), 1)
    | .readErr m => (.error (.bodyRead m), 1)
    | .undecodable m => (.error (.decode m), 1)
    | .decoded r => (.ok r, 1)

/-- `caConfirmResponse`: error envelope of the confirmation endpoint
(exported fields, so `json.Unmarshal` populates them). -/
structure caConfirmResponse where
  ErrorCode : String
  ErrorMessage : String
deriving Repr, DecidableEq, Inhabited

/-- Body phase of a confirmation response: reached only when the status
is not 200 (a 200 response returns before the body is read). -/
inductive confirmBody where
  | readErr (msg : String)
  | undecodable (msg : String)
  | decoded (r : caConfirmResponse)

/-- Outcome of the confirmation POST: a transport failure, or a response
with its status code and (lazily read) body. -/
inductive confirmHttp where
  | transportErr (msg : String)
  | resp (status : Nat) (body : confirmBody)

/-- `caAPI.ConfirmRequest`: POSTs the reason to the per-request Confirm
endpoint (URL interpolation of `r.RequestID` and the `json.Marshal` of
the one-field payload, which cannot fail, are not modelled — no claim
concerns them).  A 200 status returns success without touching the body;
otherwise the body is read and decoded, a non-empty error code becomes
the formatted error, and an empty one falls through to success. -/
def ConfirmRequest (api : caAPI) (r : caIncomingRequest) (reason : String)
    (resp : confirmHttp) : Except caError Unit :=
  match resp with
  | .transportErr m => .error (.transport m)
  | .resp status body =>
    if status = 200 then .ok ()
    else
      match body with
      | .readErr m => .error (.bodyRead m)
      | .undecodable m => .error (.decode m)
      | .decoded confirmResponse =>
        if confirmResponse.ErrorCode ≠ "" then
          .error (.codeMessage confirmResponse.ErrorCode confirmResponse.ErrorMessage)
        else .ok ()

/-- Nested account details of one of the caller's own requests. -/
structure caMyRequestProperties where
  Name : String
deriving Repr, DecidableEq, Inhabited

structure caMyRequestAccountDetails where
  AccountID : String
  Properties : caMyRequestProperties
deriving Repr, DecidableEq, Inhabited

/-- `caMyRequest`: one of the caller's own requests. -/
structure caMyRequest where
  Status : Int
  StatusTitle : String
  AccountDetails : caMyRequestAccountDetails
deriving Repr, DecidableEq, Inhabited

/-- The fields present in the server's MyRequests JSON envelope as they
appear on the wire. -/
structure wireMyRequests where
  ErrorCode : String
  ErrorMessage : String
  MyRequests : List caMyRequest
deriving Repr, DecidableEq, Inhabited

/-- The Go struct `caMyRequestsResponse`.  Its `errorCode` and
`errorMessage` fields are unexported (lower-case) in the source, carrying
json tags "ErrorCode" and "ErrorMessage". -/
structure caMyRequestsResponse where
  errorCode : String
  errorMessage : String
  MyRequests : List caMyRequest
deriving Repr, DecidableEq, Inhabited

/-- `json.Unmarshal` into `caMyRequestsResponse`.  Per the documented
semantics of Go's `encoding/json`, `Unmarshal` sets only exported struct
fields; the json tags on the unexported `errorCode` / `errorMessage`
fields are ignored and those fields keep their zero value "", no matter
what the wire envelope carries.  Only the exported `MyRequests` field is
populated. -/
def unmarshal_caMyRequestsResponse (w : wireMyRequests) : caMyRequestsResponse :=
  { errorCode := "", errorMessage := "", MyRequests := w.MyRequests }

/-- `caAPI.MyRequests`: authenticated GET of the caller's own requests;
decodes the envelope and is meant to surface a non-empty server error
code as an error (lines 303-305 of the source), but the decode step goes
through `unmarshal_caMyRequestsResponse` above. -/
def MyRequests (api : caAPI) (resp : bodyResult wireMyRequests) :
    Except caError caMyRequestsResponse :=
  match resp with
  | .transportErr m => .error (.transport m)
  | .readErr m => .error (.bodyRead m)
  | .undecodable m => .error (.decode m)
  | .decoded w =>
    let myReqs := unmarshal_caMyRequestsResponse w
    if myReqs.errorCode ≠ "" then
      .error (.codeMessage myReqs.errorCode myReqs.errorMessage)
    else .ok myReqs

/-- `caAPI.GetPassword`: authenticated GET of the credential for the
request's account; the raw body is returned verbatim on success. -/
def GetPassword (api : caAPI) (req : caMyRequest) (resp : rawResult) :
    Except caError String :=
  match resp with
  | .transportErr m => .error (.transport m)
  | .readErr m => .error (.bodyRead m)
  | .raw body => .ok body

/-- The per-request loop of `retrieve` (main.go lines 107-114): for each
of the caller's requests fetch the credential; on an error, `continue`
to the next request (no output of any kind for the failed one); on
success print the account name and the password.  The result is the list
of printed lines, in order.  The transport parameter gives each
request's HTTP outcome. -/
def retrieveLoop (api : caAPI) (transport : caMyRequest → rawResult) :
    List caMyRequest → List String
  | [] => []
  | r :: rs =>
    match GetPassword api r (transport r) with
    | .error _ => retrieveLoop api transport rs
    | .ok passwd =>
      (r.AccountDetails.Properties.Name ++ " = " ++ passwd) ::
        retrieveLoop api transport rs

/-! ## Claims about the session client and the operations -/

/-- Claim C2 is refuted by the code: because `errorCode` / `errorMessage`
are unexported struct fields, `json.Unmarshal` never populates them, the
guard at lines 303-305 is dead code, and `MyRequests` returns the decoded
request sequence successfully for every decodable envelope — including
one carrying a non-empty server error code.  The second conjunct
evaluates the operation at such a failing input. -/
theorem C2_error_code_never_surfaced :
    (∀ (api : caAPI) (w : wireMyRequests),
      MyRequests api (.decoded w) =
        .ok { errorCode := "", errorMessage := "", MyRequests := w.MyRequests }) ∧
    MyRequests { Base := "https://pwv.example", LogonKey := "sessionkey" }
      (.decoded { ErrorCode := "ITATS004E", ErrorMessage := "Some failure",
                  MyRequests := [] }) =
      .ok { errorCode := "", errorMessage := "", MyRequests := [] } :=
  ⟨fun _ _ => rfl, rfl⟩

/-- Counterexample to claim C3 as stated: a confirmation response with
status 500 whose body decodes with an empty error code is returned as
success, so the operation does not "never return success on a non-200
status". -/
theorem C3_counterexample :
    ConfirmRequest { Base := "https://pwv.example", LogonKey := "sessionkey" }
      default "reason"
      (.resp 500 (.decoded { ErrorCode := "", ErrorMessage := "" })) = .ok () := rfl

/-- Claim C3 as amended: on a non-200 status the body is consulted — an
unreadable or undecodable body surfaces the corresponding error, a
decoded body with a non-empty error code surfaces the formatted server
error, and a decoded body with an empty error code falls through to
success. -/
theorem C3_non_200_confirm (api : caAPI) (r : caIncomingRequest)
    (reason : String) (status : Nat) (m : String) (cr : caConfirmResponse)
    (h : status ≠ 200) :
    ConfirmRequest api r reason (.resp status (.readErr m)) =
      .error (.bodyRead m) ∧
    ConfirmRequest api r reason (.resp status (.undecodable m)) =
      .error (.decode m) ∧
    (cr.ErrorCode ≠ "" →
      ConfirmRequest api r reason (.resp status (.decoded cr)) =
        .error (.codeMessage cr.ErrorCode cr.ErrorMessage)) ∧
    (cr.ErrorCode = "" →
      ConfirmRequest api r reason (.resp status (.decoded cr)) = .ok ()) := by
  refine ⟨?_, ?_, ?_, ?_⟩
  · simp [ConfirmRequest, h]
  · simp [ConfirmRequest, h]
  · intro hcr
    simp [ConfirmRequest, h, hcr]
  · intro hcr
    simp [ConfirmRequest, h, hcr]

/-- Witness for C3 at a 403 response with a decoded server error. -/
theorem C3_witness :
    ConfirmRequest { Base := "https://pwv.example", LogonKey := "sessionkey" }
      default "reason"
      (.resp 403 (.decoded { ErrorCode := "ITATS127E", ErrorMessage := "denied" })) =
      .error (.codeMessage "ITATS127E" "denied") :=
  (C3_non_200_confirm { Base := "https://pwv.example", LogonKey := "sessionkey" }
    default "reason" 403 "unused"
    { ErrorCode := "ITATS127E", ErrorMessage := "denied" }
    (by decide)).2.2.1 (by decide)

/-- The session state reached by a successful login from the fresh state:
its `LogonKey` is the server-provided token. -/
def c4api : caAPI :=
  (Login { Base := "https://pwv.example", LogonKey := "" } "user" "pw"
    (.decoded { CyberArkLogonResult := "SESSIONTOKEN", ErrorCode := "",
                ErrorMessage := "" })).1

/-- Counterexample to claim C4 as stated: after a successful Login and a
successful Logout, the token is still held (Logout never clears it), so a
second Logout does not fail with the NotAuthenticated guard — it
succeeds again.  The guard therefore does not cover "calling Logout a
second time after a prior logout". -/
theorem C4_counterexample :
    (Logout c4api (.ok ())).2 = .ok () ∧
    (Logout (Logout c4api (.ok ())).1 (.ok ())).2 = .ok () ∧
    (Logout (Logout c4api (.ok ())).1 (.ok ())).2 ≠
      .error (.noLogonKey "no logon key exists - unable to logout") :=
  ⟨rfl, rfl, fun h => nomatch h⟩

/-- Claim C4 as amended: Logout fails with the NotAuthenticated guard
exactly when the session token is empty — which covers calling Logout
before any Login — and Logout leaves the state (in particular the token)
unchanged, so the guard does not fire on a repeated Logout after a
successful one. -/
theorem C4_logout_guard (api : caAPI) (resp : Except String Unit) :
    ((Logout api resp).2 =
        .error (.noLogonKey "no logon key exists - unable to logout") ↔
      api.LogonKey = "") ∧
    (Logout api resp).1 = api := by
  unfold Logout
  by_cases h : api.LogonKey = ""
  · simp [h]
  · cases resp <;> simp [h]

/-- Claim C5: a login response carrying a non-empty server error code
makes Login fail with the formatted authentication error, and the session
state — in particular the token — is left exactly as it was. -/
theorem C5_login_failure_preserves_state (api : caAPI)
    (username password : String) (r : caLogonResponse)
    (h : r.ErrorCode ≠ "") :
    Login api username password (.decoded r) =
      (api, .error (.codeMessage r.ErrorCode r.ErrorMessage)) := by
  simp [Login, h]

/-- Witness for C5: a failed login from the fresh (empty-token) state
leaves the token empty. -/
theorem C5_witness :
    Login { Base := "https://pwv.example", LogonKey := "" } "user" "pw"
      (.decoded { CyberArkLogonResult := "", ErrorCode := "ITATS004E",
                  ErrorMessage := "Authentication failure" }) =
      ({ Base := "https://pwv.example", LogonKey := "" },
        .error (.codeMessage "ITATS004E" "Authentication failure")) :=
  C5_login_failure_preserves_state { Base := "https://pwv.example", LogonKey := "" }
    "user" "pw"
    { CyberArkLogonResult := "", ErrorCode := "ITATS004E",
      ErrorMessage := "Authentication failure" } (by decide)

/-- Claim C6: a login response that decodes with an empty error code makes
Login succeed and store the server-provided `CyberArkLogonResult` into the
session token exactly, with no transformation. -/
theorem C6_login_success_stores_token (api : caAPI)
    (username password : String) (r : caLogonResponse)
    (h : r.ErrorCode = "") :
    Login api username password (.decoded r) =
      ({ api with LogonKey := r.CyberArkLogonResult }, .ok ()) := by
  simp [Login, h]

/-- Witness for C6 at a concrete token value. -/
theorem C6_witness :
    Login { Base := "https://pwv.example", LogonKey := "" } "user" "pw"
      (.decoded { CyberArkLogonResult := "SESSIONTOKEN", ErrorCode := "",
                  ErrorMessage := "" }) =
      ({ Base := "https://pwv.example", LogonKey := "SESSIONTOKEN" }, .ok ()) :=
  C6_login_success_stores_token { Base := "https://pwv.example", LogonKey := "" }
    "user" "pw"
    { CyberArkLogonResult := "SESSIONTOKEN", ErrorCode := "", ErrorMessage := "" }
    rfl

/-- Claim C7: listing incoming requests with an empty session token fails
with the NotAuthenticated guard and performs zero HTTP round trips — the
result is the same for every possible transport outcome. -/
theorem C7_incoming_requires_auth (api : caAPI) (h : api.LogonKey = "")
    (resp : bodyResult caIncomingRequestsResponse) :
    IncomingRequests api resp = (.error (.noLogonKey "no logon key exists"), 0) := by
  simp [IncomingRequests, h]

/-- Witness for C7 at the fresh state and a transport that would fail if
consulted. -/
theorem C7_witness :
    IncomingRequests { Base := "https://pwv.example", LogonKey := "" }
      (.transportErr "connection refused") =
      (.error (.noLogonKey "no logon key exists"), 0) :=
  C7_incoming_requires_auth { Base := "https://pwv.example", LogonKey := "" }
    rfl (.transportErr "connection refused")

theorem retrieveLoop_append (api : caAPI) (transport : caMyRequest → rawResult)
    (l1 l2 : List caMyRequest) :
    retrieveLoop api transport (l1 ++ l2) =
      retrieveLoop api transport l1 ++ retrieveLoop api transport l2 := by
  induction l1 with
  | nil => rfl
  | cons r rs ih =>
    simp only [List.cons_append, retrieveLoop]
    cases hgp : GetPassword api r (transport r) <;> simp [hgp, ih]

/-- A concrete "my request" used in the C8 scenario. -/
def c8req (name accID : String) : caMyRequest :=
  { Status := 1, StatusTitle := "Waiting",
    AccountDetails := { AccountID := accID, Properties := { Name := name } } }

/-- A transport in which exactly the fetch for account "acc2" fails. -/
def c8transport : caMyRequest → rawResult := fun r =>
  if r.AccountDetails.AccountID = "acc2" then .transportErr "connection refused"
  else .raw ("secret-" ++ r.AccountDetails.AccountID)

/-- Counterexample to claim C8 as stated: in a batch of three requests
whose second credential fetch fails, the printed output consists of
exactly the two success lines — every line is one of them — so the
second request's failure is silently skipped, not "reported as a
failure" (no output of any kind mentions it). -/
theorem C8_counterexample :
    retrieveLoop { Base := "https://pwv.example", LogonKey := "sessionkey" }
      c8transport [c8req "one" "acc1", c8req "two" "acc2", c8req "three" "acc3"] =
      ["one = secret-acc1", "three = secret-acc3"] ∧
    ∀ l ∈ retrieveLoop { Base := "https://pwv.example", LogonKey := "sessionkey" }
      c8transport [c8req "one" "acc1", c8req "two" "acc2", c8req "three" "acc3"],
      l = "one = secret-acc1" ∨ l = "three = secret-acc3" := by
  have h : retrieveLoop { Base := "https://pwv.example", LogonKey := "sessionkey" }
      c8transport [c8req "one" "acc1", c8req "two" "acc2", c8req "three" "acc3"] =
      ["one = secret-acc1", "three = secret-acc3"] := rfl
  refine ⟨h, ?_⟩
  rw [h]
  intro l hl
  rcases List.mem_cons.mp hl with rfl | hl
  · exact Or.inl rfl
  rcases List.mem_cons.mp hl with rfl | hl
  · exact Or.inr rfl
  · exact absurd hl (List.not_mem_nil l)

/-- Claim C8 as amended: when the fetch for request `r` fails, the batch
is not aborted — the requests after `r` are still processed, all requests
other than `r` yield exactly the results they would yield on their own,
and `r` contributes nothing to the output (its failure is silently
skipped rather than reported). -/
theorem C8_batch_isolation (api : caAPI) (transport : caMyRequest → rawResult)
    (l1 l2 : List caMyRequest) (r : caMyRequest) (e : caError)
    (h : GetPassword api r (transport r) = .error e) :
    retrieveLoop api transport (l1 ++ r :: l2) =
      retrieveLoop api transport l1 ++ retrieveLoop api transport l2 := by
  rw [retrieveLoop_append]
  simp only [retrieveLoop, h]

/-- Witness for C8 at the three-request scenario with the middle fetch
failing. -/
theorem C8_witness :
    retrieveLoop { Base := "https://pwv.example", LogonKey := "sessionkey" }
      c8transport
      ([c8req "one" "acc1"] ++ c8req "two" "acc2" :: [c8req "three" "acc3"]) =
      retrieveLoop { Base := "https://pwv.example", LogonKey := "sessionkey" }
        c8transport [c8req "one" "acc1"] ++
      retrieveLoop { Base := "https://pwv.example", LogonKey := "sessionkey" }
        c8transport [c8req "three" "acc3"] :=
  C8_batch_isolation { Base := "https://pwv.example", LogonKey := "sessionkey" }
    c8transport [c8req "one" "acc1"] [c8req "three" "acc3"]
    (c8req "two" "acc2") (.transport "connection refused") rfl
